import Mathlib

/-!
Shallow embedding of `connectomics/utils/evaluate.py` (segmentation
evaluation metrics: adapted Rand error, variation of information,
contingency tables, binary Jaccard), together with theorems settling the
specification claims.

Conventions of the embedding:
* label volumes are flattened to `List ℕ` (the Python code ravels its
  array inputs before use, so only the flat sequence matters);
* Python/numpy float arithmetic is modelled exactly over `ℚ` (all
  quantities are ratios of voxel counts) except where `log2` forces real
  values, where `ℝ` with `Real.logb 2` is used;
* a numpy division whose divisor is zero produces NaN or infinity and no
  exception; results that may be non-finite are modelled as `Option`,
  with `none` standing for a NaN/inf-contaminated result;
* a Python function that can raise (an `assert`) is modelled with
  `Except`, `Except.error` standing for the raised exception.
-/

namespace Eval

/-! ### confusion_matrix (evaluate.py lines 373-380) -/

/-- `confusion_matrix(pred, gt, thres)`: counts of
`(gt == 1) & (pred > thres)`, `(gt == 0) & (pred > thres)`,
`(gt == 0) & (pred <= thres)`, `(gt == 1) & (pred <= thres)`,
over elementwise-paired arrays, returned as `(TP, FP, TN, FN)`. -/
def confusion_matrix (pred : List ℚ) (gt : List ℕ) (thres : ℚ) :
    ℕ × ℕ × ℕ × ℕ :=
  let z := pred.zip gt
  ((z.countP (fun p => decide (p.2 = 1 ∧ thres < p.1))),
   (z.countP (fun p => decide (p.2 = 0 ∧ thres < p.1))),
   (z.countP (fun p => decide (p.2 = 0 ∧ p.1 ≤ thres))),
   (z.countP (fun p => decide (p.2 = 1 ∧ p.1 ≤ thres))))

/-! ### get_binary_jaccard (evaluate.py lines 383-409) -/

/-- numpy float division: divisor `0` yields a non-finite value (`none`),
never an exception. -/
def sdiv (a b : ℚ) : Option ℚ :=
  if b = 0 then none else some (a / b)

/-- Addition of possibly non-finite values: NaN propagates. -/
def oadd (a b : Option ℚ) : Option ℚ :=
  match a, b with
  | some x, some y => some (x + y)
  | _, _ => none

/-- One score row `[iou_fg, iou, precision, recall]` of
`get_binary_jaccard` at threshold `t` (divisions may hit a zero divisor,
in which case that entry is non-finite). -/
def jaccard_row (pred : List ℚ) (gt : List ℕ) (t : ℚ) : List (Option ℚ) :=
  let c := confusion_matrix pred gt t
  let TP : ℚ := c.1
  let FP : ℚ := c.2.1
  let TN : ℚ := c.2.2.1
  let FN : ℚ := c.2.2.2
  let precision := sdiv TP (TP + FP)
  let recl := sdiv TP (TP + FN)
  let iou_fg := sdiv TP (TP + FP + FN)
  let iou_bg := sdiv TN (TN + FP + FN)
  let iou := (oadd iou_fg iou_bg).map (fun v => v / 2)
  [iou_fg, iou, precision, recl]

/-- `get_binary_jaccard(pred, gt, thres)`: for each threshold in order,
assert `0.0 < t < 1.0` (an assertion failure raises, modelled as
`Except.error` with the assertion message) and compute the score row. -/
def get_binary_jaccard (pred : List ℚ) (gt : List ℕ) :
    List ℚ → Except String (List (List (Option ℚ)))
  | [] => Except.ok []
  | t :: ts =>
    if 0 < t ∧ t < 1 then
      match get_binary_jaccard pred gt ts with
      | Except.ok rows => Except.ok (jaccard_row pred gt t :: rows)
      | Except.error e => Except.error e
    else
      Except.error "The range of the threshold should be (0,1)."

theorem get_binary_jaccard_error_of_bad (pred : List ℚ) (gt : List ℕ)
    (thres : List ℚ) (t : ℚ) (ht : t ∈ thres) (hbad : ¬(0 < t ∧ t < 1)) :
    get_binary_jaccard pred gt thres =
      Except.error "The range of the threshold should be (0,1)." := by
  induction thres with
  | nil => cases ht
  | cons u us ih =>
    rcases List.mem_cons.mp ht with rfl | hmem
    · simp [get_binary_jaccard, hbad]
    · by_cases hu : 0 < u ∧ u < 1
      · simp [get_binary_jaccard, hu, ih hmem]
      · simp [get_binary_jaccard, hu]

lemma countP_confusion_partition (thres : ℚ) (l : List (ℚ × ℕ))
    (hbin : ∀ p ∈ l, p.2 = 0 ∨ p.2 = 1) :
    l.countP (fun p => decide (p.2 = 1 ∧ thres < p.1)) +
    l.countP (fun p => decide (p.2 = 0 ∧ thres < p.1)) +
    l.countP (fun p => decide (p.2 = 0 ∧ p.1 ≤ thres)) +
    l.countP (fun p => decide (p.2 = 1 ∧ p.1 ≤ thres)) = l.length := by
  induction l with
  | nil => simp
  | cons q qs ih =>
    have hq : q.2 = 0 ∨ q.2 = 1 := hbin q (List.mem_cons_self q qs)
    have hqs : ∀ p ∈ qs, p.2 = 0 ∨ p.2 = 1 :=
      fun p hp => hbin p (List.mem_cons_of_mem q hp)
    have hrec := ih hqs
    simp only [List.countP_cons, List.length_cons]
    by_cases hp : thres < q.1
    · have hnp : ¬ q.1 ≤ thres := not_le.mpr hp
      rcases hq with h0 | h1
      · simp [h0, hp, hnp] at hrec ⊢
        omega
      · simp [h1, hp, hnp] at hrec ⊢
        omega
    · have hple : q.1 ≤ thres := le_of_not_lt hp
      rcases hq with h0 | h1
      · simp [h0, hp, hple] at hrec ⊢
        omega
      · simp [h1, hp, hple] at hrec ⊢
        omega

theorem confusion_matrix_partition (pred : List ℚ) (gt : List ℕ)
    (thres : ℚ) (hlen : pred.length = gt.length)
    (hbin : ∀ g ∈ gt, g = 0 ∨ g = 1) :
    (confusion_matrix pred gt thres).1 +
    (confusion_matrix pred gt thres).2.1 +
    (confusion_matrix pred gt thres).2.2.1 +
    (confusion_matrix pred gt thres).2.2.2 = gt.length := by
  have hbin' : ∀ p ∈ pred.zip gt, p.2 = 0 ∨ p.2 = 1 := by
    intro p hp
    exact hbin p.2 (List.of_mem_zip hp).2
  have hzlen : (pred.zip gt).length = gt.length := by
    rw [List.length_zip, hlen, min_self]
  have h := countP_confusion_partition thres (pred.zip gt) hbin'
  rw [hzlen] at h
  simpa [confusion_matrix] using h

/-! ### contingency_table (evaluate.py lines 218-255)

`seg` labels index the rows, `gt` labels the columns; the coo matrix has
shape `(max(seg)+1, max(gt)+1)`; a voxel contributes weight 1 unless its
`seg` label is in `ignore_seg` or its `gt` label is in `ignore_gt`, in
which case its weight is 0; `norm=True` divides by the total weight. -/

/-- Largest label occurring in a volume (`np.amax` of a non-empty array;
0 on the empty list). -/
def maxL (l : List ℕ) : ℕ := l.foldr max 0

/-- Per-voxel data weight: 0 when the voxel carries an ignored label on
either side, else 1 (evaluate.py lines 245-251). -/
def w (igs igg : List ℕ) (p : ℕ × ℕ) : ℚ :=
  if p.1 ∈ igs ∨ p.2 ∈ igg then 0 else 1

/-- Entry `(i, j)` of the unnormalized contingency table accumulated over
a list of (seg label, gt label) voxel pairs (`coo_matrix` duplicate
summation, evaluate.py line 252). -/
def contL (igs igg : List ℕ) (l : List (ℕ × ℕ)) (i j : ℕ) : ℚ :=
  (l.map (fun p => if p.1 = i ∧ p.2 = j then w igs igg p else 0)).sum

/-- Total weight of a voxel list (`cont.sum()`, evaluate.py line 254). -/
def totL (igs igg : List ℕ) (l : List (ℕ × ℕ)) : ℚ :=
  (l.map (w igs igg)).sum

/-- Unnormalized contingency table entry of two label volumes. -/
def cont (seg gt igs igg : List ℕ) (i j : ℕ) : ℚ :=
  contL igs igg (seg.zip gt) i j

/-- Total weight of the contingency table of two label volumes. -/
def tot (seg gt igs igg : List ℕ) : ℚ :=
  totL igs igg (seg.zip gt)

/-- Normalized contingency table entry (`cont /= float(cont.sum())`).
Meaningful only when the total weight is nonzero; `contingency_table`
gates on that. -/
def pq (seg gt igs igg : List ℕ) (i j : ℕ) : ℚ :=
  cont seg gt igs igg i j / tot seg gt igs igg

/-- `contingency_table(seg, gt, ignore_seg, ignore_gt, norm=True)`.
When the total weight is zero, numpy's `0/0` turns every entry into NaN;
that all-NaN table is modelled as `none`. Otherwise the normalized table
is returned. -/
def contingency_table (seg gt igs igg : List ℕ) :
    Option (ℕ → ℕ → ℚ) :=
  if tot seg gt igs igg = 0 then none else some (pq seg gt igs igg)

/-- `contingency_table` with Python's default arguments
`ignore_seg=[0], ignore_gt=[0]` (evaluate.py line 218). -/
def contingency_table_defaults (seg gt : List ℕ) : Option (ℕ → ℕ → ℚ) :=
  contingency_table seg gt [0] [0]

/-- Number of rows of the coo matrix: `max(seg.ravel()) + 1`. -/
def nR (seg : List ℕ) : ℕ := maxL seg + 1

/-- Number of columns of the coo matrix: `max(gt.ravel()) + 1`. -/
def nC (gt : List ℕ) : ℕ := maxL gt + 1

/-- Total mass of the normalized contingency table (sum of all entries),
`none` when the table is the all-NaN table. -/
def table_mass (seg gt igs igg : List ℕ) : Option ℚ :=
  (contingency_table seg gt igs igg).map
    (fun f => ∑ i ∈ Finset.range (nR seg), ∑ j ∈ Finset.range (nC gt), f i j)

/-! ### vi_tables / split_vi / voi (evaluate.py lines 89-215) -/

/-- `xlogx` on one scalar value with `np.log2`: a zero entry is left
untouched (it stays 0, and `log2` is not evaluated there); a nonzero
entry `v` becomes `v * log2 v` (evaluate.py lines 365-366). -/
noncomputable def xlogxR (v : ℝ) : ℝ :=
  if v = 0 then 0 else v * Real.logb 2 v

/-- `xlogx` on a data array, parametric in the logarithm used: only the
nonzero entries are multiplied by `log2` of themselves; zero entries
(including explicitly stored sparse zeros) are returned unchanged and the
logarithm is never applied to them (evaluate.py lines 355-367). -/
noncomputable def xlogxData (log2 : ℝ → ℝ) (z : List ℝ) : List ℝ :=
  z.map (fun v => if v = 0 then v else v * log2 v)

/-- Row marginal `px[i]` of the normalized contingency table
(`pxy.sum(axis=1)`, evaluate.py line 196). -/
def pxQ (seg gt igs igg : List ℕ) (i : ℕ) : ℚ :=
  ∑ j ∈ Finset.range (nC gt), pq seg gt igs igg i j

/-- Column marginal `py[j]` of the normalized contingency table
(`pxy.sum(axis=0)`, evaluate.py line 197). -/
def pyQ (seg gt igs igg : List ℕ) (j : ℕ) : ℚ :=
  ∑ i ∈ Finset.range (nR seg), pq seg gt igs igg i j

/-- `lpygx[i]`: zero for a zero row, else the row sum of
`xlogx(divide_rows(pxy, px))` (evaluate.py lines 206-207). -/
noncomputable def lpygx (seg gt igs igg : List ℕ) (i : ℕ) : ℝ :=
  if pxQ seg gt igs igg i = 0 then 0
  else ∑ j ∈ Finset.range (nC gt),
    xlogxR ((pq seg gt igs igg i j / pxQ seg gt igs igg i : ℚ) : ℝ)

/-- `lpxgy[j]`: zero for a zero column, else the column sum of
`xlogx(divide_columns(pxy, py))` (evaluate.py lines 211-212). -/
noncomputable def lpxgy (seg gt igs igg : List ℕ) (j : ℕ) : ℝ :=
  if pyQ seg gt igs igg j = 0 then 0
  else ∑ i ∈ Finset.range (nR seg),
    xlogxR ((pq seg gt igs igg i j / pyQ seg gt igs igg j : ℚ) : ℝ)

/-- `hygx.sum()` where `hygx = -(px * lpygx)` (evaluate.py line 209):
the conditional entropy H(Y|X) of the gt labels given the seg labels. -/
noncomputable def hygxS (seg gt igs igg : List ℕ) : ℝ :=
  ∑ i ∈ Finset.range (nR seg),
    (-(((pxQ seg gt igs igg i : ℚ) : ℝ) * lpygx seg gt igs igg i))

/-- `hxgy.sum()` where `hxgy = -(py * lpxgy)` (evaluate.py line 213):
the conditional entropy H(X|Y) of the seg labels given the gt labels. -/
noncomputable def hxgyS (seg gt igs igg : List ℕ) : ℝ :=
  ∑ j ∈ Finset.range (nC gt),
    (-(((pyQ seg gt igs igg j : ℚ) : ℝ) * lpxgy seg gt igs igg j))

/-- `split_vi(x, y, ignore_x, ignore_y)` (evaluate.py lines 126-160):
returns `[hygx.sum(), hxgy.sum()]`, i.e. (false merges, false splits).
`none` models the NaN pair produced when the contingency table has zero
total mass. -/
noncomputable def split_vi (x y igx igy : List ℕ) : Option (ℝ × ℝ) :=
  if tot x y igx igy = 0 then none
  else some (hygxS x y igx igy, hxgyS x y igx igy)

/-- `voi(reconstruction, groundtruth, ignore_reconstruction,
ignore_groundtruth)` (evaluate.py lines 89-123): unpacks `split_vi` as
`(hyxg, hxgy)` and returns `(hxgy, hyxg)`, i.e. (split, merge) =
(H(X|Y), H(Y|X)). -/
noncomputable def voi (reconstruction groundtruth igr igg : List ℕ) : Option (ℝ × ℝ) :=
  (split_vi reconstruction groundtruth igr igg).map (fun s => (s.2, s.1))

/-- `voi` with its Python default ignore arguments
`ignore_reconstruction=[]`, `ignore_groundtruth=[0]`. -/
noncomputable def voiD (reconstruction groundtruth : List ℕ) : Option (ℝ × ℝ) :=
  voi reconstruction groundtruth [] [0]

/-! ### Supporting lemmas on the contingency table -/

lemma mem_le_maxL {a : ℕ} {l : List ℕ} (h : a ∈ l) : a ≤ maxL l := by
  induction l with
  | nil => cases h
  | cons b bs ih =>
    rcases List.mem_cons.mp h with rfl | hmem
    · exact le_max_left _ _
    · exact le_trans (ih hmem) (le_max_right _ _)

lemma sum_box_ite (p : ℕ × ℕ) (v : ℚ) (R C : ℕ)
    (h1 : p.1 < R) (h2 : p.2 < C) :
    (∑ i ∈ Finset.range R, ∑ j ∈ Finset.range C,
      (if p.1 = i ∧ p.2 = j then v else 0)) = v := by
  have hrow : ∀ i, (∑ j ∈ Finset.range C,
      (if p.1 = i ∧ p.2 = j then v else 0)) =
      (if p.1 = i then v else 0) := by
    intro i
    by_cases hi : p.1 = i
    · simp only [hi, true_and]
      rw [Finset.sum_ite_eq]
      simp [Finset.mem_range.mpr h2]
    · simp [hi]
  rw [Finset.sum_congr rfl (fun i _ => hrow i), Finset.sum_ite_eq]
  simp [Finset.mem_range.mpr h1]

lemma sum_box_contL (igs igg : List ℕ) (l : List (ℕ × ℕ)) (R C : ℕ)
    (hb : ∀ p ∈ l, p.1 < R ∧ p.2 < C) :
    (∑ i ∈ Finset.range R, ∑ j ∈ Finset.range C, contL igs igg l i j) =
      totL igs igg l := by
  induction l with
  | nil => simp [contL, totL]
  | cons q qs ih =>
    have hq := hb q (List.mem_cons_self q qs)
    have hqs : ∀ p ∈ qs, p.1 < R ∧ p.2 < C :=
      fun p hp => hb p (List.mem_cons_of_mem q hp)
    have hsplit : ∀ i j, contL igs igg (q :: qs) i j =
        (if q.1 = i ∧ q.2 = j then w igs igg q else 0) +
          contL igs igg qs i j := by
      intro i j
      simp [contL]
    calc (∑ i ∈ Finset.range R, ∑ j ∈ Finset.range C,
            contL igs igg (q :: qs) i j)
        = (∑ i ∈ Finset.range R, ∑ j ∈ Finset.range C,
            ((if q.1 = i ∧ q.2 = j then w igs igg q else 0) +
              contL igs igg qs i j)) := by
          refine Finset.sum_congr rfl (fun i _ => ?_)
          exact Finset.sum_congr rfl (fun j _ => hsplit i j)
      _ = (∑ i ∈ Finset.range R, ∑ j ∈ Finset.range C,
            (if q.1 = i ∧ q.2 = j then w igs igg q else 0)) +
          (∑ i ∈ Finset.range R, ∑ j ∈ Finset.range C,
            contL igs igg qs i j) := by
          rw [← Finset.sum_add_distrib]
          refine Finset.sum_congr rfl (fun i _ => ?_)
          rw [← Finset.sum_add_distrib]
      _ = w igs igg q + totL igs igg qs := by
          rw [sum_box_ite q (w igs igg q) R C hq.1 hq.2, ih hqs]
      _ = totL igs igg (q :: qs) := by simp [totL]

lemma zip_bounds (seg gt : List ℕ) :
    ∀ p ∈ seg.zip gt, p.1 < nR seg ∧ p.2 < nC gt := by
  intro p hp
  have h := List.of_mem_zip (a := p.1) (b := p.2) (by simpa using hp)
  exact ⟨Nat.lt_succ_of_le (mem_le_maxL h.1),
         Nat.lt_succ_of_le (mem_le_maxL h.2)⟩

lemma sum_box_cont (seg gt igs igg : List ℕ) :
    (∑ i ∈ Finset.range (nR seg), ∑ j ∈ Finset.range (nC gt),
      cont seg gt igs igg i j) = tot seg gt igs igg :=
  sum_box_contL igs igg (seg.zip gt) (nR seg) (nC gt) (zip_bounds seg gt)

/-! ### Claim C5: table mass invariant -/

/-- C5 (corrected): whenever not every voxel is ignored (the table's
total weight is nonzero), the entries of the normalized contingency table
sum to exactly 1. With every voxel ignored the table is all-NaN
(modelled as `none`), so the hypothesis is necessary. -/
theorem contingency_table_mass_one (seg gt igs igg : List ℕ)
    (htot : tot seg gt igs igg ≠ 0) :
    table_mass seg gt igs igg = some 1 := by
  have htab : contingency_table seg gt igs igg =
      some (pq seg gt igs igg) := by
    simp [contingency_table, htot]
  have hsum : (∑ i ∈ Finset.range (nR seg), ∑ j ∈ Finset.range (nC gt),
      pq seg gt igs igg i j) = 1 := by
    have : (∑ i ∈ Finset.range (nR seg), ∑ j ∈ Finset.range (nC gt),
        pq seg gt igs igg i j) =
        (∑ i ∈ Finset.range (nR seg), ∑ j ∈ Finset.range (nC gt),
          cont seg gt igs igg i j) / tot seg gt igs igg := by
      rw [Finset.sum_div]
      refine Finset.sum_congr rfl (fun i _ => ?_)
      rw [Finset.sum_div]
      rfl
    rw [this, sum_box_cont]
    exact div_self htot
  rw [table_mass, htab]
  simp [hsum]

/-- C5 witness: a concrete table with nonzero mass sums to 1. -/
theorem contingency_table_mass_one_witness :
    table_mass [1, 2] [1, 1] [0] [0] = some 1 :=
  contingency_table_mass_one [1, 2] [1, 1] [0] [0]
    (by norm_num [tot, totL, w, List.zip_cons_cons])

/-- C5 counterexample: with `seg = [1]`, `gt = [0]` every voxel is
ignored, the normalization divides by zero, and the table (hence its
mass) is NaN rather than 1. -/
theorem contingency_table_mass_counterexample :
    table_mass [1] [0] [0] [0] = none ∧
      table_mass [1] [0] [0] [0] ≠ some 1 := by
  have htot : tot [1] [0] [0] [0] = 0 := by
    norm_num [tot, totL, w, List.zip_cons_cons]
  have hnone : table_mass [1] [0] [0] [0] = none := by
    simp [table_mass, contingency_table, htot]
  exact ⟨hnone, by simp [hnone]⟩

/-! ### Claim C2: default ignore arguments of contingency_table -/

/-- C2 counterexample: Python's default arguments are
`ignore_seg=[0], ignore_gt=[0]`, so with `seg = [0,1]`, `gt = [1,1]`
the voxel with seg label 0 and gt label 1 contributes weight 0 (the
claim predicted weight 1), and the default table's entry `(0, 1)` is 0
even though one voxel maps there. -/
theorem contingency_defaults_counterexample :
    contingency_table_defaults [0, 1] [1, 1] =
      contingency_table [0, 1] [1, 1] [0] [0] ∧
    w [0] [0] (0, 1) = 0 ∧
    cont [0, 1] [1, 1] [0] [0] 0 1 = 0 := by
  refine ⟨rfl, by norm_num [w], by norm_num [cont, contL, w, List.zip_cons_cons]⟩

/-- C2 (corrected): when `contingency_table` is called without explicit
ignore arguments, BOTH the candidate label 0 and the ground-truth label 0
are ignored (`ignore_seg` defaults to `[0]`, not to the empty set); in
particular every voxel whose seg label is 0 contributes weight 0, and
every table entry in row 0 or column 0 is 0. -/
theorem contingency_defaults_ignore_seg_zero (seg gt : List ℕ)
    (i j : ℕ) (h : i = 0 ∨ j = 0) :
    cont seg gt [0] [0] i j = 0 := by
  rw [cont, contL]
  refine List.sum_eq_zero (fun x hx => ?_)
  rcases List.mem_map.mp hx with ⟨p, _, rfl⟩
  by_cases hpij : p.1 = i ∧ p.2 = j
  · have hw : w [0] [0] p = 0 := by
      rw [w, if_pos]
      rcases h with rfl | rfl
      · exact Or.inl (by simp [hpij.1])
      · exact Or.inr (by simp [hpij.2])
    simp [hpij, hw]
  · simp [hpij]

/-- C2 witness: the corrected statement at a concrete input. -/
theorem contingency_defaults_ignore_seg_zero_witness :
    cont [0, 1] [1, 1] [0] [0] 0 1 = 0 :=
  contingency_defaults_ignore_seg_zero [0, 1] [1, 1] 0 1 (Or.inl rfl)

/-! ### Claim C4: the xlogx zero convention -/

lemma xlogxR_zero : xlogxR 0 = 0 := by simp [xlogxR]

lemma xlogxR_one : xlogxR 1 = 0 := by
  rw [xlogxR, if_neg one_ne_zero, Real.logb_one, mul_zero]

lemma xlogxR_half : xlogxR (1 / 2) = -(1 / 2) := by
  rw [xlogxR, if_neg (by norm_num : (1 / 2 : ℝ) ≠ 0)]
  have h2 : Real.logb 2 ((2 : ℝ)⁻¹) = -1 := by
    rw [Real.logb_inv, Real.logb_self_eq_one (by norm_num : (1 : ℝ) < 2)]
  rw [one_div, h2]
  norm_num

/-- C4 (confirmed): `xlogx` maps every zero entry (stored or scalar) to
exactly 0, maps every nonzero entry `v` to `v * log2 v`, and never
evaluates the logarithm at 0: for any logarithm `f` agreeing with `log2`
away from 0 (but arbitrary at 0) the result is unchanged. -/
theorem xlogx_zero_convention (z : List ℝ) (i : ℕ) (v : ℝ) (f : ℝ → ℝ) :
    (z[i]? = some 0 → (xlogxData (Real.logb 2) z)[i]? = some 0) ∧
    (z[i]? = some v → v ≠ 0 →
      (xlogxData (Real.logb 2) z)[i]? = some (v * Real.logb 2 v)) ∧
    ((∀ u : ℝ, u ≠ 0 → f u = Real.logb 2 u) →
      xlogxData f z = xlogxData (Real.logb 2) z) := by
  refine ⟨?_, ?_, ?_⟩
  · intro h
    rw [xlogxData, List.getElem?_map, h]
    simp
  · intro h hv
    rw [xlogxData, List.getElem?_map, h]
    simp [hv]
  · intro hfg
    rw [xlogxData, xlogxData]
    refine List.map_congr_left (fun u _ => ?_)
    by_cases hu : u = 0
    · simp [hu]
    · simp [hu, hfg u hu]

/-- C4 witness: concrete instances of all three parts. -/
theorem xlogx_zero_convention_witness :
    (xlogxData (Real.logb 2) [(0 : ℝ), 2])[0]? = some 0 ∧
    (xlogxData (Real.logb 2) [(0 : ℝ), 2])[1]? =
      some (2 * Real.logb 2 2) ∧
    xlogxData (fun u => if u = 0 then 1 else Real.logb 2 u)
        [(0 : ℝ), 2] =
      xlogxData (Real.logb 2) [(0 : ℝ), 2] := by
  refine ⟨(xlogx_zero_convention [(0 : ℝ), 2] 0 2 id).1 rfl,
    (xlogx_zero_convention [(0 : ℝ), 2] 1 2 id).2.1 rfl (by norm_num),
    (xlogx_zero_convention [(0 : ℝ), 2] 0 2
        (fun u => if u = 0 then 1 else Real.logb 2 u)).2.2
      (fun u hu => by simp [hu])⟩

/-! ### Claim C8: variation of information on identical inputs -/

lemma zip_self (x : List ℕ) : x.zip x = x.map (fun a => (a, a)) := by
  induction x with
  | nil => rfl
  | cons a as ih => simp [List.zip_cons_cons, ih]

lemma cont_self_eq_zero (x : List ℕ) {i j : ℕ} (h : i ≠ j ∨ i = 0) :
    cont x x [] [0] i j = 0 := by
  rw [cont, zip_self, contL, List.map_map]
  refine List.sum_eq_zero (fun e he => ?_)
  rcases List.mem_map.mp he with ⟨a, _, rfl⟩
  simp only [Function.comp_apply]
  by_cases hc : a = i ∧ a = j
  · rcases h with hne | h0
    · exact absurd (hc.1.symm.trans hc.2) hne
    · have ha : a = 0 := h0 ▸ hc.1
      simp [w, ha, hc]
  · simp [hc]

lemma pxQ_self (x : List ℕ) (i : ℕ) (hi : i < nR x) :
    pxQ x x [] [0] i = pq x x [] [0] i i := by
  rw [pxQ]
  refine Finset.sum_eq_single_of_mem i (Finset.mem_range.mpr hi) ?_
  intro j _ hji
  rw [pq, cont_self_eq_zero x (Or.inl (fun h => hji h.symm)), zero_div]

lemma pyQ_self (x : List ℕ) (j : ℕ) (hj : j < nR x) :
    pyQ x x [] [0] j = pq x x [] [0] j j := by
  rw [pyQ]
  refine Finset.sum_eq_single_of_mem j (Finset.mem_range.mpr hj) ?_
  intro i _ hij
  rw [pq, cont_self_eq_zero x (Or.inl hij), zero_div]

lemma lpygx_self (x : List ℕ) (i : ℕ) (hi : i < nR x) :
    lpygx x x [] [0] i = 0 := by
  rw [lpygx]
  by_cases hz : pxQ x x [] [0] i = 0
  · rw [if_pos hz]
  · rw [if_neg hz]
    have hdiag := pxQ_self x i hi
    have hne : pq x x [] [0] i i ≠ 0 := fun h => hz (hdiag.trans h)
    refine Finset.sum_eq_zero (fun j _ => ?_)
    by_cases hj : j = i
    · subst hj
      rw [hdiag, div_self hne]
      push_cast
      exact xlogxR_one
    · rw [pq, cont_self_eq_zero x (Or.inl (fun h => hj h.symm)), zero_div,
        zero_div]
      push_cast
      exact xlogxR_zero

lemma lpxgy_self (x : List ℕ) (j : ℕ) (hj : j < nR x) :
    lpxgy x x [] [0] j = 0 := by
  rw [lpxgy]
  by_cases hz : pyQ x x [] [0] j = 0
  · rw [if_pos hz]
  · rw [if_neg hz]
    have hdiag := pyQ_self x j hj
    have hne : pq x x [] [0] j j ≠ 0 := fun h => hz (hdiag.trans h)
    refine Finset.sum_eq_zero (fun i _ => ?_)
    by_cases hi : i = j
    · subst hi
      rw [hdiag, div_self hne]
      push_cast
      exact xlogxR_one
    · rw [pq, cont_self_eq_zero x (Or.inl hi), zero_div, zero_div]
      push_cast
      exact xlogxR_zero

lemma hygxS_self (x : List ℕ) : hygxS x x [] [0] = 0 := by
  rw [hygxS]
  refine Finset.sum_eq_zero (fun i hi => ?_)
  rw [lpygx_self x i (Finset.mem_range.mp hi), mul_zero, neg_zero]

lemma hxgyS_self (x : List ℕ) : hxgyS x x [] [0] = 0 := by
  rw [hxgyS]
  refine Finset.sum_eq_zero (fun j hj => ?_)
  rw [lpxgy_self x j (Finset.mem_range.mp hj), mul_zero, neg_zero]

lemma w_nonneg (igs igg : List ℕ) (p : ℕ × ℕ) : 0 ≤ w igs igg p := by
  rw [w]
  split <;> norm_num

lemma totL_nonneg (igs igg : List ℕ) (l : List (ℕ × ℕ)) :
    0 ≤ totL igs igg l := by
  induction l with
  | nil => simp [totL]
  | cons q qs ih =>
    rw [totL, List.map_cons, List.sum_cons]
    have := w_nonneg igs igg q
    rw [totL] at ih
    linarith

lemma totL_pos_of_mem (igs igg : List ℕ) (l : List (ℕ × ℕ))
    (p : ℕ × ℕ) (hp : p ∈ l) (hw : w igs igg p = 1) :
    0 < totL igs igg l := by
  induction l with
  | nil => cases hp
  | cons q qs ih =>
    rw [totL, List.map_cons, List.sum_cons]
    rcases List.mem_cons.mp hp with rfl | hmem
    · have := totL_nonneg igs igg qs
      rw [totL] at this
      rw [hw]
      linarith
    · have hpos := ih hmem
      have := w_nonneg igs igg q
      rw [totL] at hpos
      linarith

lemma tot_self_ne_zero (x : List ℕ) (h : ∃ k ∈ x, k ≠ 0) :
    tot x x [] [0] ≠ 0 := by
  rcases h with ⟨k, hk, hk0⟩
  have hmem : (k, k) ∈ x.zip x := by
    rw [zip_self]
    exact List.mem_map.mpr ⟨k, hk, rfl⟩
  have hw : w [] [0] (k, k) = 1 := by
    simp [w, hk0]
  exact ne_of_gt (totL_pos_of_mem [] [0] (x.zip x) (k, k) hmem hw)

/-- C8 (confirmed): for a label volume with at least one voxel that is
not ignored (the reading of "no ignored labels colliding": some label
is nonzero, so the table mass is positive and the metric is defined),
`voi(x, x)` with the default ignore sets returns exactly `(0.0, 0.0)`. -/
theorem voi_identity (x : List ℕ) (h : ∃ k ∈ x, k ≠ 0) :
    voiD x x = some (0, 0) := by
  rw [voiD, voi, split_vi, if_neg (tot_self_ne_zero x h)]
  rw [hygxS_self, hxgyS_self]
  rfl

/-- C8 witness: the identity case at `x = [1]`. -/
theorem voi_identity_witness : voiD [1] [1] = some (0, 0) :=
  voi_identity [1] ⟨1, by simp, one_ne_zero⟩

/-! ### Claim C7: argument swap of variation_of_information -/

lemma w_swap {p : ℕ × ℕ} (hpw : p.1 = 0 ↔ p.2 = 0) :
    w [] [0] p.swap = w [] [0] p := by
  rw [w, w]
  simp only [Prod.swap, List.not_mem_nil, false_or, List.mem_singleton]
  by_cases h0 : p.1 = 0
  · rw [if_pos h0, if_pos (hpw.mp h0)]
  · rw [if_neg h0, if_neg (fun hh => h0 (hpw.mpr hh))]

lemma cont_swap (a b : List ℕ)
    (hw : ∀ p ∈ a.zip b, (p.1 = 0 ↔ p.2 = 0)) (i j : ℕ) :
    cont b a [] [0] i j = cont a b [] [0] j i := by
  rw [cont, cont, ← List.zip_swap a b, contL, contL, List.map_map]
  refine congrArg List.sum (List.map_congr_left (fun p hp => ?_))
  have hpw := hw p hp
  simp only [Function.comp_apply]
  by_cases hc : p.1 = j ∧ p.2 = i
  · rw [if_pos (by exact ⟨hc.2, hc.1⟩ : (Prod.swap p).1 = i ∧ (Prod.swap p).2 = j),
      if_pos hc]
    exact w_swap hpw
  · rw [if_neg (fun hs => hc ⟨hs.2, hs.1⟩), if_neg hc]

lemma tot_swap (a b : List ℕ)
    (hw : ∀ p ∈ a.zip b, (p.1 = 0 ↔ p.2 = 0)) :
    tot b a [] [0] = tot a b [] [0] := by
  rw [tot, tot, ← List.zip_swap a b, totL, totL, List.map_map]
  refine congrArg List.sum (List.map_congr_left (fun p hp => ?_))
  exact w_swap (hw p hp)

lemma pq_swap (a b : List ℕ)
    (hw : ∀ p ∈ a.zip b, (p.1 = 0 ↔ p.2 = 0)) (i j : ℕ) :
    pq b a [] [0] i j = pq a b [] [0] j i := by
  rw [pq, pq, cont_swap a b hw, tot_swap a b hw]

lemma pxQ_swap (a b : List ℕ)
    (hw : ∀ p ∈ a.zip b, (p.1 = 0 ↔ p.2 = 0)) (i : ℕ) :
    pxQ b a [] [0] i = pyQ a b [] [0] i := by
  rw [pxQ, pyQ]
  rw [show nC a = nR a from rfl]
  exact Finset.sum_congr rfl (fun j _ => pq_swap a b hw i j)

lemma pyQ_swap (a b : List ℕ)
    (hw : ∀ p ∈ a.zip b, (p.1 = 0 ↔ p.2 = 0)) (j : ℕ) :
    pyQ b a [] [0] j = pxQ a b [] [0] j := by
  rw [pyQ, pxQ]
  rw [show nR b = nC b from rfl]
  exact Finset.sum_congr rfl (fun i _ => pq_swap a b hw i j)

lemma lpygx_swap (a b : List ℕ)
    (hw : ∀ p ∈ a.zip b, (p.1 = 0 ↔ p.2 = 0)) (i : ℕ) :
    lpygx b a [] [0] i = lpxgy a b [] [0] i := by
  rw [lpygx, lpxgy, pxQ_swap a b hw]
  by_cases hz : pyQ a b [] [0] i = 0
  · rw [if_pos hz, if_pos hz]
  · rw [if_neg hz, if_neg hz]
    rw [show nC a = nR a from rfl]
    refine Finset.sum_congr rfl (fun j _ => ?_)
    rw [pq_swap a b hw]

lemma lpxgy_swap (a b : List ℕ)
    (hw : ∀ p ∈ a.zip b, (p.1 = 0 ↔ p.2 = 0)) (j : ℕ) :
    lpxgy b a [] [0] j = lpygx a b [] [0] j := by
  rw [lpygx, lpxgy, pyQ_swap a b hw]
  by_cases hz : pxQ a b [] [0] j = 0
  · rw [if_pos hz, if_pos hz]
  · rw [if_neg hz, if_neg hz]
    rw [show nR b = nC b from rfl]
    refine Finset.sum_congr rfl (fun i _ => ?_)
    rw [pq_swap a b hw]

lemma hygxS_swap (a b : List ℕ)
    (hw : ∀ p ∈ a.zip b, (p.1 = 0 ↔ p.2 = 0)) :
    hygxS b a [] [0] = hxgyS a b [] [0] := by
  rw [hygxS, hxgyS]
  rw [show nR b = nC b from rfl]
  refine Finset.sum_congr rfl (fun i _ => ?_)
  rw [pxQ_swap a b hw, lpygx_swap a b hw]

lemma hxgyS_swap (a b : List ℕ)
    (hw : ∀ p ∈ a.zip b, (p.1 = 0 ↔ p.2 = 0)) :
    hxgyS b a [] [0] = hygxS a b [] [0] := by
  rw [hxgyS, hygxS]
  rw [show nC a = nR a from rfl]
  refine Finset.sum_congr rfl (fun j _ => ?_)
  rw [pyQ_swap a b hw, lpxgy_swap a b hw]

/-- C7 (corrected): swapping the two arguments of
`variation_of_information` swaps the split and merge outputs PROVIDED the
two volumes agree on where the ignored label 0 occurs (in particular
when neither contains label 0). Because `voi`'s defaults ignore label 0
only on the ground-truth side, the claim fails when 0 occurs
asymmetrically (see the counterexample). -/
theorem voi_swap (a b : List ℕ)
    (hw : ∀ p ∈ a.zip b, (p.1 = 0 ↔ p.2 = 0)) :
    voiD b a = (voiD a b).map (fun s => (s.2, s.1)) := by
  rw [voiD, voiD, voi, voi, split_vi, split_vi, tot_swap a b hw]
  by_cases hz : tot a b [] [0] = 0
  · rw [if_pos hz, if_pos hz]
    rfl
  · rw [if_neg hz, if_neg hz]
    rw [hygxS_swap a b hw, hxgyS_swap a b hw]
    rfl

/-- C7 witness: the corrected swap property at concrete zero-free
volumes. -/
theorem voi_swap_witness :
    voiD [1, 1] [1, 2] = (voiD [1, 2] [1, 1]).map (fun s => (s.2, s.1)) :=
  voi_swap [1, 2] [1, 1] (by decide)

/-! ### Claim C6: the concrete VI scenario
`seg = [[1,1],[2,2]]`, `gt = [[1,1],[1,1]]`, ravelled to `[1,1,2,2]` and
`[1,1,1,1]`. -/

lemma c6_tot : tot [1, 1, 2, 2] [1, 1, 1, 1] [] [0] = 4 := by
  norm_num [tot, totL, w, List.zip_cons_cons]

lemma c6_cont00 : cont [1, 1, 2, 2] [1, 1, 1, 1] [] [0] 0 0 = 0 := by
  norm_num [cont, contL, w, List.zip_cons_cons]

lemma c6_cont01 : cont [1, 1, 2, 2] [1, 1, 1, 1] [] [0] 0 1 = 0 := by
  norm_num [cont, contL, w, List.zip_cons_cons]

lemma c6_cont10 : cont [1, 1, 2, 2] [1, 1, 1, 1] [] [0] 1 0 = 0 := by
  norm_num [cont, contL, w, List.zip_cons_cons]

lemma c6_cont11 : cont [1, 1, 2, 2] [1, 1, 1, 1] [] [0] 1 1 = 2 := by
  norm_num [cont, contL, w, List.zip_cons_cons]

lemma c6_cont20 : cont [1, 1, 2, 2] [1, 1, 1, 1] [] [0] 2 0 = 0 := by
  norm_num [cont, contL, w, List.zip_cons_cons]

lemma c6_cont21 : cont [1, 1, 2, 2] [1, 1, 1, 1] [] [0] 2 1 = 2 := by
  norm_num [cont, contL, w, List.zip_cons_cons]

lemma c6_nC : nC [1, 1, 1, 1] = 2 := rfl

lemma c6_nR : nR [1, 1, 2, 2] = 3 := rfl

lemma c6_pq11 : pq [1, 1, 2, 2] [1, 1, 1, 1] [] [0] 1 1 = 1 / 2 := by
  rw [pq, c6_cont11, c6_tot]
  norm_num

lemma c6_pq21 : pq [1, 1, 2, 2] [1, 1, 1, 1] [] [0] 2 1 = 1 / 2 := by
  rw [pq, c6_cont21, c6_tot]
  norm_num

lemma c6_pxQ0 : pxQ [1, 1, 2, 2] [1, 1, 1, 1] [] [0] 0 = 0 := by
  rw [pxQ, c6_nC]
  simp only [Finset.sum_range_succ, Finset.sum_range_zero]
  rw [pq, pq, c6_cont00, c6_cont01, c6_tot]
  norm_num

lemma c6_pxQ1 : pxQ [1, 1, 2, 2] [1, 1, 1, 1] [] [0] 1 = 1 / 2 := by
  rw [pxQ, c6_nC]
  simp only [Finset.sum_range_succ, Finset.sum_range_zero]
  rw [pq, pq, c6_cont10, c6_cont11, c6_tot]
  norm_num

lemma c6_pxQ2 : pxQ [1, 1, 2, 2] [1, 1, 1, 1] [] [0] 2 = 1 / 2 := by
  rw [pxQ, c6_nC]
  simp only [Finset.sum_range_succ, Finset.sum_range_zero]
  rw [pq, pq, c6_cont20, c6_cont21, c6_tot]
  norm_num

lemma c6_pyQ0 : pyQ [1, 1, 2, 2] [1, 1, 1, 1] [] [0] 0 = 0 := by
  rw [pyQ, c6_nR]
  simp only [Finset.sum_range_succ, Finset.sum_range_zero]
  rw [pq, pq, pq, c6_cont00, c6_cont10, c6_cont20, c6_tot]
  norm_num

lemma c6_pyQ1 : pyQ [1, 1, 2, 2] [1, 1, 1, 1] [] [0] 1 = 1 := by
  rw [pyQ, c6_nR]
  simp only [Finset.sum_range_succ, Finset.sum_range_zero]
  rw [pq, pq, pq, c6_cont01, c6_cont11, c6_cont21, c6_tot]
  norm_num

lemma c6_lpygx1 : lpygx [1, 1, 2, 2] [1, 1, 1, 1] [] [0] 1 = 0 := by
  rw [lpygx, if_neg (by rw [c6_pxQ1]; norm_num), c6_nC]
  simp only [Finset.sum_range_succ, Finset.sum_range_zero]
  rw [pq, pq, c6_cont10, c6_cont11, c6_tot, c6_pxQ1]
  norm_num [xlogxR_zero, xlogxR_one]

lemma c6_lpygx2 : lpygx [1, 1, 2, 2] [1, 1, 1, 1] [] [0] 2 = 0 := by
  rw [lpygx, if_neg (by rw [c6_pxQ2]; norm_num), c6_nC]
  simp only [Finset.sum_range_succ, Finset.sum_range_zero]
  rw [pq, pq, c6_cont20, c6_cont21, c6_tot, c6_pxQ2]
  norm_num [xlogxR_zero, xlogxR_one]

lemma c6_lpxgy1 : lpxgy [1, 1, 2, 2] [1, 1, 1, 1] [] [0] 1 = -1 := by
  rw [lpxgy, if_neg (by rw [c6_pyQ1]; norm_num), c6_nR]
  simp only [Finset.sum_range_succ, Finset.sum_range_zero]
  rw [pq, pq, pq, c6_cont01, c6_cont11, c6_cont21, c6_tot, c6_pyQ1]
  norm_num [xlogxR_zero, xlogxR_half]

lemma c6_hygxS : hygxS [1, 1, 2, 2] [1, 1, 1, 1] [] [0] = 0 := by
  rw [hygxS, c6_nR]
  simp only [Finset.sum_range_succ, Finset.sum_range_zero]
  rw [c6_pxQ0, c6_lpygx1, c6_lpygx2]
  norm_num

lemma c6_hxgyS : hxgyS [1, 1, 2, 2] [1, 1, 1, 1] [] [0] = 1 := by
  rw [hxgyS, c6_nC]
  simp only [Finset.sum_range_succ, Finset.sum_range_zero]
  rw [c6_pyQ0, c6_pyQ1, c6_lpxgy1]
  norm_num

/-- C6 (confirmed): on `seg = [[1,1],[2,2]]`, `gt = [[1,1],[1,1]]`, `voi`
with its default ignore sets goes through the normalized contingency
table with entries `C[1,1] = C[2,1] = 0.5` and returns split error
`H(X|Y) = 1` bit and merge error `H(Y|X) = 0` (in `voi`'s output order
`(split, merge)`). -/
theorem voi_concrete_scenario :
    contingency_table [1, 1, 2, 2] [1, 1, 1, 1] [] [0] =
      some (pq [1, 1, 2, 2] [1, 1, 1, 1] [] [0]) ∧
    pq [1, 1, 2, 2] [1, 1, 1, 1] [] [0] 1 1 = 1 / 2 ∧
    pq [1, 1, 2, 2] [1, 1, 1, 1] [] [0] 2 1 = 1 / 2 ∧
    voiD [1, 1, 2, 2] [1, 1, 1, 1] = some (1, 0) := by
  have htot : tot [1, 1, 2, 2] [1, 1, 1, 1] [] [0] ≠ 0 := by
    rw [c6_tot]; norm_num
  refine ⟨by simp [contingency_table, htot], c6_pq11, c6_pq21, ?_⟩
  rw [voiD, voi, split_vi, if_neg htot, c6_hygxS, c6_hxgyS]
  rfl

/-! ### C7 counterexample scenarios: `a = [0,1]`, `b = [1,1]`.
`voi(a, b)` ignores label 0 only on the gt side (none there), while
`voi(b, a)` ignores the voxel where `a` is 0, so the outputs do not
swap. -/

lemma s1_tot : tot [0, 1] [1, 1] [] [0] = 2 := by
  norm_num [tot, totL, w, List.zip_cons_cons]

lemma s1_cont00 : cont [0, 1] [1, 1] [] [0] 0 0 = 0 := by
  norm_num [cont, contL, w, List.zip_cons_cons]

lemma s1_cont01 : cont [0, 1] [1, 1] [] [0] 0 1 = 1 := by
  norm_num [cont, contL, w, List.zip_cons_cons]

lemma s1_cont10 : cont [0, 1] [1, 1] [] [0] 1 0 = 0 := by
  norm_num [cont, contL, w, List.zip_cons_cons]

lemma s1_cont11 : cont [0, 1] [1, 1] [] [0] 1 1 = 1 := by
  norm_num [cont, contL, w, List.zip_cons_cons]

lemma s1_nR : nR [0, 1] = 2 := rfl

lemma s1_nC : nC [1, 1] = 2 := rfl

lemma s1_pxQ0 : pxQ [0, 1] [1, 1] [] [0] 0 = 1 / 2 := by
  rw [pxQ, s1_nC]
  simp only [Finset.sum_range_succ, Finset.sum_range_zero]
  rw [pq, pq, s1_cont00, s1_cont01, s1_tot]
  norm_num

lemma s1_pxQ1 : pxQ [0, 1] [1, 1] [] [0] 1 = 1 / 2 := by
  rw [pxQ, s1_nC]
  simp only [Finset.sum_range_succ, Finset.sum_range_zero]
  rw [pq, pq, s1_cont10, s1_cont11, s1_tot]
  norm_num

lemma s1_pyQ0 : pyQ [0, 1] [1, 1] [] [0] 0 = 0 := by
  rw [pyQ, s1_nR]
  simp only [Finset.sum_range_succ, Finset.sum_range_zero]
  rw [pq, pq, s1_cont00, s1_cont10, s1_tot]
  norm_num

lemma s1_pyQ1 : pyQ [0, 1] [1, 1] [] [0] 1 = 1 := by
  rw [pyQ, s1_nR]
  simp only [Finset.sum_range_succ, Finset.sum_range_zero]
  rw [pq, pq, s1_cont01, s1_cont11, s1_tot]
  norm_num

lemma s1_lpygx0 : lpygx [0, 1] [1, 1] [] [0] 0 = 0 := by
  rw [lpygx, if_neg (by rw [s1_pxQ0]; norm_num), s1_nC]
  simp only [Finset.sum_range_succ, Finset.sum_range_zero]
  rw [pq, pq, s1_cont00, s1_cont01, s1_tot, s1_pxQ0]
  norm_num [xlogxR_zero, xlogxR_one]

lemma s1_lpygx1 : lpygx [0, 1] [1, 1] [] [0] 1 = 0 := by
  rw [lpygx, if_neg (by rw [s1_pxQ1]; norm_num), s1_nC]
  simp only [Finset.sum_range_succ, Finset.sum_range_zero]
  rw [pq, pq, s1_cont10, s1_cont11, s1_tot, s1_pxQ1]
  norm_num [xlogxR_zero, xlogxR_one]

lemma s1_lpxgy1 : lpxgy [0, 1] [1, 1] [] [0] 1 = -1 := by
  rw [lpxgy, if_neg (by rw [s1_pyQ1]; norm_num), s1_nR]
  simp only [Finset.sum_range_succ, Finset.sum_range_zero]
  rw [pq, pq, s1_cont01, s1_cont11, s1_tot, s1_pyQ1]
  norm_num [xlogxR_half]

lemma s1_hygxS : hygxS [0, 1] [1, 1] [] [0] = 0 := by
  rw [hygxS, s1_nR]
  simp only [Finset.sum_range_succ, Finset.sum_range_zero]
  rw [s1_lpygx0, s1_lpygx1]
  norm_num

lemma s1_hxgyS : hxgyS [0, 1] [1, 1] [] [0] = 1 := by
  rw [hxgyS, s1_nC]
  simp only [Finset.sum_range_succ, Finset.sum_range_zero]
  rw [s1_pyQ0, s1_pyQ1, s1_lpxgy1]
  norm_num

lemma s1_voiD : voiD [0, 1] [1, 1] = some (1, 0) := by
  have htot : tot [0, 1] [1, 1] [] [0] ≠ 0 := by
    rw [s1_tot]; norm_num
  rw [voiD, voi, split_vi, if_neg htot, s1_hygxS, s1_hxgyS]
  rfl

lemma s2_tot : tot [1, 1] [0, 1] [] [0] = 1 := by
  norm_num [tot, totL, w, List.zip_cons_cons]

lemma s2_cont00 : cont [1, 1] [0, 1] [] [0] 0 0 = 0 := by
  norm_num [cont, contL, w, List.zip_cons_cons]

lemma s2_cont01 : cont [1, 1] [0, 1] [] [0] 0 1 = 0 := by
  norm_num [cont, contL, w, List.zip_cons_cons]

lemma s2_cont10 : cont [1, 1] [0, 1] [] [0] 1 0 = 0 := by
  norm_num [cont, contL, w, List.zip_cons_cons]

lemma s2_cont11 : cont [1, 1] [0, 1] [] [0] 1 1 = 1 := by
  norm_num [cont, contL, w, List.zip_cons_cons]

lemma s2_nR : nR [1, 1] = 2 := rfl

lemma s2_nC : nC [0, 1] = 2 := rfl

lemma s2_pxQ0 : pxQ [1, 1] [0, 1] [] [0] 0 = 0 := by
  rw [pxQ, s2_nC]
  simp only [Finset.sum_range_succ, Finset.sum_range_zero]
  rw [pq, pq, s2_cont00, s2_cont01, s2_tot]
  norm_num

lemma s2_pxQ1 : pxQ [1, 1] [0, 1] [] [0] 1 = 1 := by
  rw [pxQ, s2_nC]
  simp only [Finset.sum_range_succ, Finset.sum_range_zero]
  rw [pq, pq, s2_cont10, s2_cont11, s2_tot]
  norm_num

lemma s2_pyQ0 : pyQ [1, 1] [0, 1] [] [0] 0 = 0 := by
  rw [pyQ, s2_nR]
  simp only [Finset.sum_range_succ, Finset.sum_range_zero]
  rw [pq, pq, s2_cont00, s2_cont10, s2_tot]
  norm_num

lemma s2_pyQ1 : pyQ [1, 1] [0, 1] [] [0] 1 = 1 := by
  rw [pyQ, s2_nR]
  simp only [Finset.sum_range_succ, Finset.sum_range_zero]
  rw [pq, pq, s2_cont01, s2_cont11, s2_tot]
  norm_num

lemma s2_lpygx1 : lpygx [1, 1] [0, 1] [] [0] 1 = 0 := by
  rw [lpygx, if_neg (by rw [s2_pxQ1]; norm_num), s2_nC]
  simp only [Finset.sum_range_succ, Finset.sum_range_zero]
  rw [pq, pq, s2_cont10, s2_cont11, s2_tot, s2_pxQ1]
  norm_num [xlogxR_zero, xlogxR_one]

lemma s2_lpxgy1 : lpxgy [1, 1] [0, 1] [] [0] 1 = 0 := by
  rw [lpxgy, if_neg (by rw [s2_pyQ1]; norm_num), s2_nR]
  simp only [Finset.sum_range_succ, Finset.sum_range_zero]
  rw [pq, pq, s2_cont01, s2_cont11, s2_tot, s2_pyQ1]
  norm_num [xlogxR_zero, xlogxR_one]

lemma s2_hygxS : hygxS [1, 1] [0, 1] [] [0] = 0 := by
  rw [hygxS, s2_nR]
  simp only [Finset.sum_range_succ, Finset.sum_range_zero]
  rw [s2_pxQ0, s2_lpygx1, s2_pxQ1]
  norm_num

lemma s2_hxgyS : hxgyS [1, 1] [0, 1] [] [0] = 0 := by
  rw [hxgyS, s2_nC]
  simp only [Finset.sum_range_succ, Finset.sum_range_zero]
  rw [s2_pyQ0, s2_pyQ1, s2_lpxgy1]
  norm_num

lemma s2_voiD : voiD [1, 1] [0, 1] = some (0, 0) := by
  have htot : tot [1, 1] [0, 1] [] [0] ≠ 0 := by
    rw [s2_tot]; norm_num
  rw [voiD, voi, split_vi, if_neg htot, s2_hygxS, s2_hxgyS]
  rfl

/-- C7 counterexample: with `a = [0,1]`, `b = [1,1]` (equal shapes) the
split error of `(a, b)` is 1 while the merge error of `(b, a)` is 0, so
swapping the arguments of `variation_of_information` does NOT swap the
outputs in general: `voi`'s default ignore sets are asymmetric (only
ground-truth label 0 is ignored). -/
theorem voi_swap_counterexample :
    voiD [0, 1] [1, 1] = some (1, 0) ∧
    voiD [1, 1] [0, 1] = some (0, 0) ∧
    voiD [1, 1] [0, 1] ≠
      (voiD [0, 1] [1, 1]).map (fun s => (s.2, s.1)) := by
  refine ⟨s1_voiD, s2_voiD, ?_⟩
  rw [s1_voiD, s2_voiD]
  intro h
  have h01 : ((0 : ℝ), (0 : ℝ)) = ((0 : ℝ), (1 : ℝ)) :=
    Option.some_injective _ h
  have : (0 : ℝ) = 1 := congrArg Prod.snd h01
  norm_num at this

/-! ### adapted_rand (evaluate.py lines 18-82)

`segA = gt` indexes the rows, `segB = seg` the columns of `p_ij`, whose
shape is `(max(gt)+1, max(seg)+1)`. `a = p_ij[1:, :]` (gt label 0
dropped from the rows, ALL candidate columns kept), `b = p_ij[1:, 1:]`,
`c = p_ij[1:, 0]`, `d = b∘b`. -/

/-- `p_ij[i, j]`: number of voxels with gt label `i` and seg label `j`
(`csr_matrix` duplicate summation, evaluate.py lines 58-59). -/
def pijN (gt seg : List ℕ) (i j : ℕ) : ℕ := (gt.zip seg).count (i, j)

/-- `n_labels_A = np.amax(segA) + 1` (gt side / rows). -/
def nlA (gt : List ℕ) : ℕ := maxL gt + 1

/-- `n_labels_B = np.amax(segB) + 1` (seg side / columns). -/
def nlB (seg : List ℕ) : ℕ := maxL seg + 1

/-- `a_i = a.sum(1)`: row sums of `p_ij[1:, :]` over ALL candidate
columns including column 0 (evaluate.py line 66). -/
def a_i (gt seg : List ℕ) (i : ℕ) : ℚ :=
  ∑ j ∈ Finset.range (nlB seg), (pijN gt seg i j : ℚ)

/-- `b_i = b.sum(0)`: column sums of `p_ij[1:, 1:]` (evaluate.py
line 67). -/
def b_i (gt seg : List ℕ) (j : ℕ) : ℚ :=
  ∑ i ∈ Finset.Ico 1 (nlA gt), (pijN gt seg i j : ℚ)

/-- `np.sum(c)`: total mass of `p_ij[1:, 0]` (gt-foreground voxels with
candidate label 0). -/
def cSum (gt seg : List ℕ) : ℚ :=
  ∑ i ∈ Finset.Ico 1 (nlA gt), (pijN gt seg i 0 : ℚ)

/-- `sumA = np.sum(a_i * a_i)` (evaluate.py line 69). -/
def sumA (gt seg : List ℕ) : ℚ :=
  ∑ i ∈ Finset.Ico 1 (nlA gt), (a_i gt seg i) ^ 2

/-- `sumB = np.sum(b_i * b_i) + np.sum(c) / n` (evaluate.py line 70). -/
def sumB (gt seg : List ℕ) : ℚ :=
  (∑ j ∈ Finset.Ico 1 (nlB seg), (b_i gt seg j) ^ 2) +
    cSum gt seg / (gt.length : ℚ)

/-- `sumAB = np.sum(d) + np.sum(c) / n` where `d = b.multiply(b)`
(evaluate.py line 71). -/
def sumAB (gt seg : List ℕ) : ℚ :=
  (∑ i ∈ Finset.Ico 1 (nlA gt), ∑ j ∈ Finset.Ico 1 (nlB seg),
      (pijN gt seg i j : ℚ) ^ 2) +
    cSum gt seg / (gt.length : ℚ)

/-- `adapted_rand(seg, gt)` (evaluate.py lines 73-82):
`precision = sumAB/sumB`, `recall = sumAB/sumA`,
`are = 1 - 2*p*r/(p+r)`. A zero divisor anywhere (`sumA`, `sumB`, or
`precision + recall`) contaminates the float result with NaN/inf,
modelled as `none`. -/
def adapted_rand (seg gt : List ℕ) : Option ℚ :=
  if sumA gt seg = 0 ∨ sumB gt seg = 0 then none
  else
    if sumAB gt seg / sumB gt seg + sumAB gt seg / sumA gt seg = 0 then none
    else
      some (1 - 2 * (sumAB gt seg / sumB gt seg) *
        (sumAB gt seg / sumA gt seg) /
        (sumAB gt seg / sumB gt seg + sumAB gt seg / sumA gt seg))

/-- C1 claim-side definition, written from the specification's wording:
the count table has ground truth on the rows; `a` is rows 1.. over all
candidate columns, `b` rows 1.. and columns 1.., `c` rows 1.. at
candidate column 0; `sumA = Σ aᵢ²`, `sumB = Σ bⱼ² + Σc/N`,
`sumAB = Σ b² + Σc/N`, `precision = sumAB/sumB`, `recall = sumAB/sumA`,
`error = 1 - 2·precision·recall/(precision+recall)`. -/
def are_spec (seg gt : List ℕ) : ℚ :=
  let N : ℚ := (gt.length : ℚ)
  let tbl : ℕ → ℕ → ℚ := fun i j => ((gt.zip seg).count (i, j) : ℚ)
  let gtRows := Finset.Ico 1 (maxL gt + 1)
  let candCols := Finset.Ico 1 (maxL seg + 1)
  let allCandCols := Finset.range (maxL seg + 1)
  let sA := ∑ i ∈ gtRows, (∑ j ∈ allCandCols, tbl i j) ^ 2
  let sC := ∑ i ∈ gtRows, tbl i 0
  let sB := (∑ j ∈ candCols, (∑ i ∈ gtRows, tbl i j) ^ 2) + sC / N
  let sAB := (∑ i ∈ gtRows, ∑ j ∈ candCols, (tbl i j) ^ 2) + sC / N
  let p := sAB / sB
  let r := sAB / sA
  1 - 2 * p * r / (p + r)

lemma cSum_nonneg (gt seg : List ℕ) : 0 ≤ cSum gt seg :=
  Finset.sum_nonneg (fun i _ => by positivity)

lemma sumA_nonneg (gt seg : List ℕ) : 0 ≤ sumA gt seg :=
  Finset.sum_nonneg (fun i _ => sq_nonneg _)

lemma sumB_nonneg (gt seg : List ℕ) : 0 ≤ sumB gt seg := by
  rw [sumB]
  have h1 : (0 : ℚ) ≤ ∑ j ∈ Finset.Ico 1 (nlB seg), (b_i gt seg j) ^ 2 :=
    Finset.sum_nonneg (fun j _ => sq_nonneg _)
  have h2 : (0 : ℚ) ≤ cSum gt seg / (gt.length : ℚ) :=
    div_nonneg (cSum_nonneg gt seg) (by positivity)
  linarith

lemma sumAB_nonneg (gt seg : List ℕ) : 0 ≤ sumAB gt seg := by
  rw [sumAB]
  have h1 : (0 : ℚ) ≤ ∑ i ∈ Finset.Ico 1 (nlA gt),
      ∑ j ∈ Finset.Ico 1 (nlB seg), (pijN gt seg i j : ℚ) ^ 2 :=
    Finset.sum_nonneg (fun i _ => Finset.sum_nonneg (fun j _ => sq_nonneg _))
  have h2 : (0 : ℚ) ≤ cSum gt seg / (gt.length : ℚ) :=
    div_nonneg (cSum_nonneg gt seg) (by positivity)
  linarith

/-- C1 (confirmed): for equal-shaped non-negative label volumes (with
all the divisors the formula uses nonzero, so the float computation is
NaN-free), `adapted_rand` returns exactly the claimed
`1 - 2·precision·recall/(precision+recall)` built from the count table
with ground truth on the rows, gt label 0 excluded from the rows but
candidate label 0 kept in the columns of `a`. -/
theorem adapted_rand_formula (seg gt : List ℕ) (hgt : gt ≠ [])
    (hlen : seg.length = gt.length)
    (hA : sumA gt seg ≠ 0) (hB : sumB gt seg ≠ 0)
    (hAB : sumAB gt seg ≠ 0) :
    adapted_rand seg gt = some (are_spec seg gt) := by
  have hApos : 0 < sumA gt seg := lt_of_le_of_ne (sumA_nonneg gt seg) (Ne.symm hA)
  have hBpos : 0 < sumB gt seg := lt_of_le_of_ne (sumB_nonneg gt seg) (Ne.symm hB)
  have hABpos : 0 < sumAB gt seg :=
    lt_of_le_of_ne (sumAB_nonneg gt seg) (Ne.symm hAB)
  have hpr : sumAB gt seg / sumB gt seg + sumAB gt seg / sumA gt seg ≠ 0 :=
    ne_of_gt (add_pos (div_pos hABpos hBpos) (div_pos hABpos hApos))
  rw [adapted_rand, if_neg (by push_neg; exact ⟨hA, hB⟩), if_neg hpr]
  rfl

/-- C1 witness: `seg = [1,2]`, `gt = [1,1]` give `sumA = 4`, `sumB = 2`,
`sumAB = 2`, hence precision 1, recall 1/2, error 1/3. -/
theorem adapted_rand_formula_witness :
    adapted_rand [1, 2] [1, 1] = some (are_spec [1, 2] [1, 1]) ∧
    adapted_rand [1, 2] [1, 1] = some (1 / 3) := by
  have hApij : a_i [1, 1] [1, 2] 1 = 2 := by
    rw [a_i]
    rw [show nlB [1, 2] = 3 from rfl]
    simp only [Finset.sum_range_succ, Finset.sum_range_zero]
    rw [show pijN [1, 1] [1, 2] 1 0 = 0 from by decide,
      show pijN [1, 1] [1, 2] 1 1 = 1 from by decide,
      show pijN [1, 1] [1, 2] 1 2 = 1 from by decide]
    norm_num
  have hIco : Finset.Ico 1 (nlA [1, 1]) = {1} := rfl
  have hIcoB : Finset.Ico 1 (nlB [1, 2]) = {1, 2} := rfl
  have hsA : sumA [1, 1] [1, 2] = 4 := by
    rw [sumA, hIco, Finset.sum_singleton, hApij]
    norm_num
  have hcS : cSum [1, 1] [1, 2] = 0 := by
    rw [cSum, hIco, Finset.sum_singleton,
      show pijN [1, 1] [1, 2] 1 0 = 0 from by decide]
    norm_num
  have hb1 : b_i [1, 1] [1, 2] 1 = 1 := by
    rw [b_i, hIco, Finset.sum_singleton,
      show pijN [1, 1] [1, 2] 1 1 = 1 from by decide]
    norm_num
  have hb2 : b_i [1, 1] [1, 2] 2 = 1 := by
    rw [b_i, hIco, Finset.sum_singleton,
      show pijN [1, 1] [1, 2] 1 2 = 1 from by decide]
    norm_num
  have hsB : sumB [1, 1] [1, 2] = 2 := by
    rw [sumB, hIcoB, hcS]
    rw [Finset.sum_insert (by decide), Finset.sum_singleton, hb1, hb2]
    norm_num
  have hsAB : sumAB [1, 1] [1, 2] = 2 := by
    rw [sumAB, hIco, hcS, Finset.sum_singleton, hIcoB]
    rw [Finset.sum_insert (by decide), Finset.sum_singleton,
      show pijN [1, 1] [1, 2] 1 1 = 1 from by decide,
      show pijN [1, 1] [1, 2] 1 2 = 1 from by decide]
    norm_num
  have h := adapted_rand_formula [1, 2] [1, 1] (by simp)
    (by simp) (by rw [hsA]; norm_num) (by rw [hsB]; norm_num)
    (by rw [hsAB]; norm_num)
  refine ⟨h, ?_⟩
  rw [adapted_rand, if_neg (by rw [hsA, hsB]; norm_num),
    if_neg (by rw [hsA, hsB, hsAB]; norm_num), hsA, hsB, hsAB]
  norm_num

/-! ### Claim C3: zero divisors produce NaN, not a typed error -/

/-- The typed error the specification postulates. The source never
raises it. -/
inductive DomainError where
  | emptyDomain

/-- Outcome of CALLING `adapted_rand` in Python: the function body
contains no raise or assert, and numpy division by zero only emits a
RuntimeWarning, so the call always returns normally (`Except.ok`); a
NaN-contaminated return value is `ok none`. -/
def adapted_rand_run (seg gt : List ℕ) : Except DomainError (Option ℚ) :=
  Except.ok (adapted_rand seg gt)

/-- Outcome of CALLING `contingency_table` in Python: likewise it never
raises; normalizing a zero-mass table yields the all-NaN table
(`ok none`). -/
def contingency_table_run (seg gt igs igg : List ℕ) :
    Except DomainError (Option (ℕ → ℕ → ℚ)) :=
  Except.ok (contingency_table seg gt igs igg)

/-- C3 (corrected): when a required divisor is zero the operations do
NOT signal a typed error — they return normally, with the NaN/inf
result of the float division. -/
theorem zero_divisor_returns_nan (seg gt igs igg seg2 gt2 : List ℕ) :
    (tot seg gt igs igg = 0 →
      contingency_table_run seg gt igs igg = Except.ok none) ∧
    (sumA gt2 seg2 = 0 →
      adapted_rand_run seg2 gt2 = Except.ok none) := by
  constructor
  · intro h
    rw [contingency_table_run, contingency_table, if_pos h]
  · intro h
    rw [adapted_rand_run, adapted_rand, if_pos (Or.inl h)]

/-- C3 counterexample: with all voxels ignored (`seg=[1], gt=[0]`) the
contingency table call returns the all-NaN table, and with a
foreground-free ground truth (`seg=[1,2], gt=[0,0]`, so `sumA = 0`)
`adapted_rand` returns NaN; in both cases the result is a normal return
(`Except.ok`), never an `Except.error` carrying a DomainError. -/
theorem zero_divisor_counterexample :
    contingency_table_run [1] [0] [0] [0] = Except.ok none ∧
    adapted_rand_run [1, 2] [0, 0] = Except.ok none := by
  have h1 : tot [1] [0] [0] [0] = 0 := by
    norm_num [tot, totL, w, List.zip_cons_cons]
  have h2 : sumA [0, 0] [1, 2] = 0 := by
    rw [sumA]
    rw [show nlA [0, 0] = 1 from rfl, Finset.Ico_self, Finset.sum_empty]
  constructor
  · rw [contingency_table_run, contingency_table, if_pos h1]
  · rw [adapted_rand_run, adapted_rand, if_pos (Or.inl h2)]

/-- C3 witness: the corrected statement applied at the same concrete
inputs. -/
theorem zero_divisor_returns_nan_witness :
    contingency_table_run [1] [0] [0] [0] = Except.ok none ∧
    adapted_rand_run [1, 2] [0, 0] = Except.ok none := by
  have h1 : tot [1] [0] [0] [0] = 0 := by
    norm_num [tot, totL, w, List.zip_cons_cons]
  have h2 : sumA [0, 0] [1, 2] = 0 := by
    rw [sumA]
    rw [show nlA [0, 0] = 1 from rfl, Finset.Ico_self, Finset.sum_empty]
  exact ⟨(zero_divisor_returns_nan [1] [0] [0] [0] [1, 2] [0, 0]).1 h1,
    (zero_divisor_returns_nan [1] [0] [0] [0] [1, 2] [0, 0]).2 h2⟩

/-- C9 witness: thresholds 0.0 and 1.0 each make `get_binary_jaccard`
raise. -/
theorem get_binary_jaccard_error_witness :
    get_binary_jaccard [1 / 2] [1] [0] =
      Except.error "The range of the threshold should be (0,1)." ∧
    get_binary_jaccard [1 / 2] [1] [1] =
      Except.error "The range of the threshold should be (0,1)." :=
  ⟨get_binary_jaccard_error_of_bad [1 / 2] [1] [0] 0
      (List.mem_singleton.mpr rfl) (by norm_num),
   get_binary_jaccard_error_of_bad [1 / 2] [1] [1] 1
      (List.mem_singleton.mpr rfl) (by norm_num)⟩

/-- C10 witness: on a concrete binary gt, the four counts sum to the
number of elements. -/
theorem confusion_matrix_partition_witness :
    (confusion_matrix [1 / 2, 3 / 4] [0, 1] (1 / 2)).1 +
    (confusion_matrix [1 / 2, 3 / 4] [0, 1] (1 / 2)).2.1 +
    (confusion_matrix [1 / 2, 3 / 4] [0, 1] (1 / 2)).2.2.1 +
    (confusion_matrix [1 / 2, 3 / 4] [0, 1] (1 / 2)).2.2.2 = 2 :=
  confusion_matrix_partition [1 / 2, 3 / 4] [0, 1] (1 / 2) rfl
    (by intro g hg; rcases List.mem_cons.mp hg with rfl | hg2
        · exact Or.inl rfl
        · exact Or.inr (List.mem_singleton.mp hg2))

end Eval
